import Mathlib

/-
Shallow embedding of the vault lifecycle and metadata manager of the onix
repository (src/src-tauri/src/services/vault_service.rs and
src/src-tauri/src/models/vault.rs).

Modelling conventions:
- Filesystem paths are Lean Strings; Path::join is string concatenation with
  a slash, matching the absolute, slash-separated paths the service works with.
- The filesystem is a flat snapshot: a list of directory paths and a list of
  files keyed by path.  WalkDir enumerates every entry whose path lies under
  the root, which in this flat view is exactly the entries equal to the root
  or extending it by a path separator.  Traversal order is irrelevant because
  the scanner only accumulates a sum and a count.
- serde_json round-tripping is abstracted: a written config file stores the
  Vault value itself, and deserialization succeeds exactly on such a payload.
- u32 and u64 counters are modelled as Nat; the trees in question are far
  below any overflow boundary.
- Byte sizes of files are Option Nat: none models a failing metadata call
  (tolerated by the scanner, contributing zero).  Files written by the
  service itself carry none because their serialized length is not tracked;
  they are irrelevant to note statistics under settings that exclude .onix.
- Mutex poisoning and io-level failures of create_dir_all/write (permissions
  and the like) are concurrency and OS artifacts outside this embedding;
  lock acquisition and writes always succeed in the model.
-/

/-! ## String helpers mirroring the Rust std operations used by the service -/

/-- Boolean prefix test on character lists: startsWithL pat s is true when
pat is an initial segment of s (Rust str::starts_with). -/
def startsWithL : List Char → List Char → Bool
  | [], _ => true
  | _ :: _, [] => false
  | a :: as, b :: bs => a == b && startsWithL as bs

/-- Boolean substring test on character lists: containsL pat s is true when
pat occurs contiguously inside s (Rust str::contains with a string pattern). -/
def containsL (pat : List Char) : List Char → Bool
  | [] => startsWithL pat []
  | c :: t => startsWithL pat (c :: t) || containsL pat t

/-- Rust str::contains - does the string s contain pat as a substring. -/
def strContains (s pat : String) : Bool :=
  containsL pat.toList s.toList

/-- Rust str::starts_with - does the string s start with pre. -/
def strStartsWith (s pre : String) : Bool :=
  startsWithL pre.toList s.toList

/-- Rust Path::file_name on a slash-separated path without trailing slash:
the final non-empty component, and none for the filesystem root or a
trailing dot-dot. -/
def rustFileName (p : String) : Option String :=
  let comp := (p.toList.reverse.takeWhile (fun c => c != '/')).reverse
  if comp.isEmpty then none
  else if comp == "..".toList then none
  else some (String.mk comp)

/-- ASCII lowercasing of a character; the recognized extensions the service
compares against are ASCII, so Rust str::to_lowercase agrees with this on
every input the scanner produces. -/
def charToLower (c : Char) : Char :=
  if 'A' ≤ c && c ≤ 'Z' then Char.ofNat (c.toNat + 32) else c

/-- Rust str::to_lowercase, restricted to ASCII case folding. -/
def strToLower (s : String) : String :=
  String.mk (s.toList.map charToLower)

/-- Extension of a bare file name, with the semantics of Rust Path::extension:
the portion after the final dot, none when there is no dot or when the only
dot is the leading character of the name. -/
def fileNameExtension (n : String) : Option String :=
  let cs := n.toList
  let suffixChars := cs.reverse.takeWhile (fun c => c != '.')
  if suffixChars.length == cs.length then none
  else if suffixChars.length + 1 == cs.length then none
  else some (String.mk suffixChars.reverse)

/-- Rust Path::extension on a full path: the extension of its file name. -/
def pathExtension (p : String) : Option String :=
  match rustFileName p with
  | none => none
  | some n => fileNameExtension n

/-- Location of the per-vault config file: path/.onix/vault.json. -/
def config_path_of (p : String) : String :=
  p ++ "/.onix" ++ "/vault.json"

/-- Location of the per-vault metadata directory: path/.onix. -/
def onix_dir_of (p : String) : String :=
  p ++ "/.onix"

/-! ## Data model (src/src-tauri/src/models/vault.rs) -/

/-- VaultSettings: auto-save flag, default note subpath, recognized file
extensions and exclusion substrings. -/
structure VaultSettings where
  auto_save : Bool
  default_note_location : String
  file_extensions : List String
  exclude_patterns : List String
deriving DecidableEq, Repr

/-- Default for VaultSettings (impl Default for VaultSettings). -/
def VaultSettings.default : VaultSettings :=
  { auto_save := true
    default_note_location := ""
    file_extensions := ["md", "markdown"]
    exclude_patterns := [".git", ".onix", "node_modules", ".DS_Store"] }

/-- VaultConfig: name, optional description, settings and an open-ended
metadata map.  The serde_json values of the metadata map are opaque to the
core and are modelled as raw strings. -/
structure VaultConfig where
  name : String
  description : Option String
  settings : VaultSettings
  metadata : List (String × String)
deriving DecidableEq, Repr

/-- Default for VaultConfig (impl Default for VaultConfig). -/
def VaultConfig.default : VaultConfig :=
  { name := "My Vault"
    description := none
    settings := VaultSettings.default
    metadata := [] }

/-- Vault: identity, display data, timestamps, derived statistics and the
embedded config. -/
structure Vault where
  id : String
  name : String
  path : String
  created_at : String
  last_opened : String
  note_count : Nat
  total_size : Nat
  config : VaultConfig
deriving DecidableEq, Repr

/-- Vault::new - a fresh vault at the given path with zero statistics and
default settings; the timestamp now stands for chrono::Utc::now. -/
def Vault.new (id name path now : String) : Vault :=
  { id := id
    name := name
    path := path
    created_at := now
    last_opened := now
    note_count := 0
    total_size := 0
    config := { VaultConfig.default with name := name } }

/-- Vault::config_path. -/
def Vault.config_path (v : Vault) : String :=
  config_path_of v.path

/-- Vault::onix_dir. -/
def Vault.onix_dir (v : Vault) : String :=
  onix_dir_of v.path

/-- VaultInfo: the listing projection of a vault. -/
structure VaultInfo where
  id : String
  name : String
  path : String
  note_count : Nat
  total_size : Nat
  last_opened : String
  is_current : Bool
deriving DecidableEq, Repr

/-- RecentVault: the recent-list projection of a vault. -/
structure RecentVault where
  id : String
  name : String
  path : String
  last_opened : String
deriving DecidableEq, Repr

/-- CreateVaultRequest. -/
structure CreateVaultRequest where
  path : String
  name : String
  description : Option String
deriving DecidableEq, Repr

/-- From Vault for VaultInfo; is_current is set by the service afterwards. -/
def Vault.toVaultInfo (v : Vault) : VaultInfo :=
  { id := v.id
    name := v.name
    path := v.path
    note_count := v.note_count
    total_size := v.total_size
    last_opened := v.last_opened
    is_current := false }

/-- From Vault for RecentVault. -/
def Vault.toRecentVault (v : Vault) : RecentVault :=
  { id := v.id
    name := v.name
    path := v.path
    last_opened := v.last_opened }

/-! ## Errors -/

/-- Modelled from the spec: the error enum AppError is declared in
src/errors.rs, a file of this repository that is not under src.  The
constructors below are exactly the ones vault_service.rs applies
(FileNotFound, InvalidPath, InvalidMarkdown, Unknown), plus Io for the
generic I/O failure the spec lists, produced when a propagated filesystem
call fails. -/
inductive AppError where
  | FileNotFound (p : String)
  | InvalidPath (msg : String)
  | InvalidMarkdown (msg : String)
  | Unknown (msg : String)
  | Io (msg : String)
deriving DecidableEq, Repr

/-- Modelled from the spec: the spec names the error kind raised when an
existing config fails to deserialize InvalidConfig; vault_service.rs realizes
that kind with the InvalidMarkdown constructor of AppError. -/
def AppError.isInvalidConfig : AppError → Bool
  | .InvalidMarkdown _ => true
  | _ => false

/-! ## Filesystem model -/

/-- Contents of a file in the model.  A config file written through
serde_json::to_string_pretty stores the Vault value itself; the persisted
recent-vaults list stores the list; anything else is opaque text.
serde_json::from_str for Vault succeeds exactly on a vaultJson payload. -/
inductive FileData where
  | vaultJson (v : Vault)
  | recentsJson (l : List RecentVault)
  | other (s : String)
deriving DecidableEq, Repr

/-- serde_json::from_str for Vault: succeeds exactly on a serialized Vault
payload. -/
def deserializeVault : FileData → Option Vault
  | .vaultJson v => some v
  | _ => none

/-- A file: its contents plus its byte length as reported by metadata; none
models a failing metadata call. -/
structure FileEntry where
  data : FileData
  size : Option Nat
deriving DecidableEq, Repr

/-- Flat snapshot of the filesystem: the set of directory paths and the
files keyed by path. -/
structure FS where
  dirs : List String
  files : List (String × FileEntry)
deriving DecidableEq, Repr

/-- Rust Path::exists - true when some filesystem entity (directory or file)
is present at the path. -/
def pathExists (fs : FS) (p : String) : Bool :=
  fs.dirs.contains p || fs.files.any (fun kv => kv.1 == p)

/-- Rust Path::is_dir. -/
def isDir (fs : FS) (p : String) : Bool :=
  fs.dirs.contains p

/-- Presence of an actual file (not a directory) at the path; this is the
observation the spec speaks about when it says the config file is present. -/
def fileExists (fs : FS) (p : String) : Bool :=
  fs.files.any (fun kv => kv.1 == p)

/-- fs::read_to_string - the contents of the file at the path, when a file
is there. -/
def readFile (fs : FS) (p : String) : Option FileData :=
  (fs.files.find? (fun kv => kv.1 == p)).map (fun kv => kv.2.data)

/-- fs::write - truncate-and-create: any previous file at the path is
replaced. -/
def writeFile (fs : FS) (p : String) (d : FileData) : FS :=
  { fs with files := (p, { data := d, size := none }) :: fs.files.filter (fun kv => kv.1 != p) }

/-- fs::create_dir_all for the .onix directory; its parent is the vault
directory, already verified to exist at every call site. -/
def createDirAll (fs : FS) (p : String) : FS :=
  if fs.dirs.contains p then fs else { fs with dirs := p :: fs.dirs }

/-! ## Exclusion Filter and Stats Scanner -/

/-- should_exclude_path: excluded when any configured pattern occurs as a
substring of the path, or unconditionally when the base name starts with a
dot. -/
def should_exclude_path (p : String) (exclude_patterns : List String) : Bool :=
  exclude_patterns.any (fun pat => strContains p pat) ||
    (match rustFileName p with
     | some file_name => strStartsWith file_name "."
     | none => false)

/-- An entry yielded by the directory walk: a directory, or a file with its
FileEntry. -/
inductive WalkKind where
  | dirK
  | fileK (fe : FileEntry)
deriving DecidableEq, Repr

/-- A walked entry: its full path and its kind. -/
structure WalkEntry where
  path : String
  kind : WalkKind
deriving DecidableEq, Repr

/-- Is the path the root itself or strictly below it. -/
def underRoot (root p : String) : Bool :=
  p == root || strStartsWith p (root ++ "/")

/-- The entries WalkDir::new(root) yields (errors filtered away, links not
followed): every directory and file whose path lies under the root. -/
def walkEntries (fs : FS) (root : String) : List WalkEntry :=
  (fs.dirs.filter (fun d => underRoot root d)).map (fun d => { path := d, kind := WalkKind.dirK })
    ++ (fs.files.filter (fun kv => underRoot root kv.1)).map
        (fun kv => { path := kv.1, kind := WalkKind.fileK kv.2 })

/-- Body of the scanning loop of calculate_vault_stats, acting on the
accumulated (note_count, total_size). -/
def statsStep (settings : VaultSettings) (acc : Nat × Nat) (e : WalkEntry) : Nat × Nat :=
  if should_exclude_path e.path settings.exclude_patterns then acc
  else
    match e.kind with
    | .dirK => acc
    | .fileK fe =>
      match pathExtension e.path with
      | none => acc
      | some extension =>
        if settings.file_extensions.contains (strToLower extension) then
          (acc.1 + 1, acc.2 + fe.size.getD 0)
        else acc

/-- calculate_vault_stats: walk the tree under vault.path, skip entries the
Exclusion Filter excludes, count files with a recognized extension and sum
their sizes; store the result in the vault. -/
def calculate_vault_stats (fs : FS) (vault : Vault) : Vault :=
  let res := (walkEntries fs vault.path).foldl (statsStep vault.config.settings) (0, 0)
  { vault with note_count := res.1, total_size := res.2 }

/-! ## Service state and operations (vault_service.rs) -/

/-- In-memory and on-disk state the VaultService acts on: the filesystem,
the current-vault slot, the in-memory recent-vaults list and its persisted
copy.  The persisted copy lives at the app-data directory, a process-wide
location outside every vault directory, so it is kept as a separate cell
rather than as a path inside fs. -/
structure ServiceState where
  fs : FS
  current_vault : Option Vault
  recent_vaults : List RecentVault
  recent_file : List RecentVault
deriving DecidableEq, Repr

/-- set_current_vault. -/
def set_current_vault (st : ServiceState) (vault : Vault) : ServiceState :=
  { st with current_vault := some vault }

/-- save_recent_vaults: persist the given list at the app-data location. -/
def save_recent_vaults (st : ServiceState) (l : List RecentVault) : ServiceState :=
  { st with recent_file := l }

/-- The list update inside add_to_recent_vaults: retain the entries with a
different id, insert the new entry at index 0, truncate to 10. -/
def recent_list_update (recent : List RecentVault) (recent_vault : RecentVault) : List RecentVault :=
  (recent_vault :: recent.filter (fun v => v.id != recent_vault.id)).take 10

/-- add_to_recent_vaults: update the in-memory list and save it to disk. -/
def add_to_recent_vaults (st : ServiceState) (recent_vault : RecentVault) : ServiceState :=
  let recent := recent_list_update st.recent_vaults recent_vault
  save_recent_vaults { st with recent_vaults := recent } recent

/-- save_vault_config: serialize the vault to its config path. -/
def save_vault_config (st : ServiceState) (vault : Vault) : ServiceState :=
  { st with fs := writeFile st.fs vault.config_path (.vaultJson vault) }

/-- The vault create_vault builds before touching the disk: Vault::new with
the requested description patched in when present. -/
def requested_vault (request : CreateVaultRequest) (vault_id now : String) : Vault :=
  let vault0 := Vault.new vault_id request.name request.path now
  match request.description with
  | some description => { vault0 with config := { vault0.config with description := some description } }
  | none => vault0

/-- Straight-line success path of create_vault: make the .onix directory,
write the config, compute statistics, set the current vault and record the
recent entry. -/
def create_vault_core (st : ServiceState) (request : CreateVaultRequest) (vault_id now : String) :
    Vault × ServiceState :=
  let vault1 := requested_vault request vault_id now
  let fs1 := createDirAll st.fs vault1.onix_dir
  let fs2 := writeFile fs1 vault1.config_path (.vaultJson vault1)
  let vault2 := calculate_vault_stats fs2 vault1
  let st1 := set_current_vault { st with fs := fs2 } vault2
  let st2 := add_to_recent_vaults st1 vault2.toRecentVault
  (vault2, st2)

/-- create_vault: validate the target path, then run the success path.
vault_id stands for the freshly generated Uuid and now for the clock. -/
def create_vault (st : ServiceState) (request : CreateVaultRequest) (vault_id now : String) :
    Except AppError (Vault × ServiceState) :=
  if pathExists st.fs request.path = false then
    .error (.FileNotFound request.path)
  else if isDir st.fs request.path = false then
    .error (.InvalidPath (request.path ++ " is not a directory"))
  else
    .ok (create_vault_core st request vault_id now)

/-- Tail shared by both branches of open_vault: recompute statistics, persist
the refreshed config, set the current vault and record the recent entry. -/
def open_vault_finish (st : ServiceState) (vault0 : Vault) : Vault × ServiceState :=
  let vault := calculate_vault_stats st.fs vault0
  let st1 := save_vault_config st vault
  let st2 := set_current_vault st1 vault
  let st3 := add_to_recent_vaults st2 vault.toRecentVault
  (vault, st3)

/-- open_vault: validate the target path; when a config file is present,
load and parse it and refresh last_opened, failing on unreadable or
unparseable contents; otherwise synthesize a new vault named after the
directory and write its config; then finish with fresh statistics.
fresh_id stands for the Uuid generated in the synthesize branch. -/
def open_vault (st : ServiceState) (vault_path fresh_id now : String) :
    Except AppError (Vault × ServiceState) :=
  if pathExists st.fs vault_path = false then
    .error (.FileNotFound vault_path)
  else if isDir st.fs vault_path = false then
    .error (.InvalidPath (vault_path ++ " is not a directory"))
  else
    let config_path := config_path_of vault_path
    if pathExists st.fs config_path then
      match readFile st.fs config_path with
      | none => .error (.Io ("failed to read " ++ config_path))
      | some config_content =>
        match deserializeVault config_content with
        | none => .error (.InvalidMarkdown "Invalid vault config: could not deserialize")
        | some loaded =>
          .ok (open_vault_finish st { loaded with last_opened := now })
    else
      let vault_name := (rustFileName vault_path).getD "Unnamed Vault"
      let vault0 := Vault.new fresh_id vault_name vault_path now
      let fs1 := createDirAll st.fs vault0.onix_dir
      let fs2 := writeFile fs1 vault0.config_path (.vaultJson vault0)
      .ok (open_vault_finish { st with fs := fs2 } vault0)

/-- get_current_vault: a copy of the current slot. -/
def get_current_vault (st : ServiceState) : Except AppError (Option Vault) :=
  .ok st.current_vault

/-- get_recent_vaults: a copy of the in-memory recent list. -/
def get_recent_vaults (st : ServiceState) : Except AppError (List RecentVault) :=
  .ok st.recent_vaults

/-- close_vault: clear the current-vault slot. -/
def close_vault (st : ServiceState) : Except AppError (Unit × ServiceState) :=
  .ok ((), { st with current_vault := none })

/-- is_vault: false for a missing or non-directory path, else presence of an
entity at the fixed config path. -/
def is_vault (fs : FS) (directory_path : String) : Except AppError Bool :=
  if (!pathExists fs directory_path || !isDir fs directory_path) = true then
    .ok false
  else
    .ok (pathExists fs (config_path_of directory_path))

/-- Body of the loop of get_vaults_info: skip an entry whose directory is
gone, whose config is missing or unreadable, or whose config does not parse;
push the projected info, tagged with current-ness, otherwise. -/
def get_vaults_info_step (fs : FS) (current_vault_id : Option String)
    (acc : List VaultInfo) (recent_vault : RecentVault) : List VaultInfo :=
  if pathExists fs recent_vault.path = false then acc
  else
    let config_path := config_path_of recent_vault.path
    if pathExists fs config_path then
      match readFile fs config_path with
      | some config_content =>
        match deserializeVault config_content with
        | some vault =>
          acc ++ [{ vault.toVaultInfo with is_current := current_vault_id == some vault.id }]
        | none => acc
      | none => acc
    else acc

/-- get_vaults_info: best-effort fold over the recent entries. -/
def get_vaults_info (st : ServiceState) : Except AppError (List VaultInfo) :=
  let current_vault_id := st.current_vault.map Vault.id
  .ok (st.recent_vaults.foldl (get_vaults_info_step st.fs current_vault_id) [])

/-- Modelled from the spec: the per-entry view of get_vaults_info the spec
describes - an entry yields a value exactly when its directory still exists
and its config file exists, is readable and parses; a failed check yields
none, that is, the entry is silently dropped. -/
def recent_entry_info (fs : FS) (current_vault_id : Option String)
    (recent_vault : RecentVault) : Option VaultInfo :=
  if pathExists fs recent_vault.path = false then none
  else if pathExists fs (config_path_of recent_vault.path) = false then none
  else
    match readFile fs (config_path_of recent_vault.path) with
    | none => none
    | some config_content =>
      match deserializeVault config_content with
      | none => none
      | some vault =>
        some { vault.toVaultInfo with is_current := current_vault_id == some vault.id }

/-- Observation on an operation result: it failed, and with the error kind
the spec calls InvalidConfig. -/
def failsWithInvalidConfig (r : Except AppError (Vault × ServiceState)) : Bool :=
  match r with
  | .error e => e.isInvalidConfig
  | .ok _ => false

/-! ## Helper lemmas -/

lemma startsWithL_nil_of {pat : List Char} (h : startsWithL pat [] = true) : pat = [] := by
  cases pat with
  | nil => rfl
  | cons a as => simp [startsWithL] at h

lemma containsL_nil_pat (s : List Char) : containsL [] s = true := by
  cases s with
  | nil => rfl
  | cons c t => simp [containsL, startsWithL]

lemma startsWithL_append {pat s : List Char} (u : List Char)
    (h : startsWithL pat s = true) : startsWithL pat (s ++ u) = true := by
  induction pat generalizing s with
  | nil => simp [startsWithL]
  | cons a as ih =>
    cases s with
    | nil => simp [startsWithL] at h
    | cons b bs =>
      simp only [startsWithL, Bool.and_eq_true] at h
      simp only [List.cons_append, startsWithL, Bool.and_eq_true]
      exact ⟨h.1, ih h.2⟩

lemma containsL_append {pat s : List Char} (u : List Char)
    (h : containsL pat s = true) : containsL pat (s ++ u) = true := by
  induction s with
  | nil =>
    have hp : pat = [] := startsWithL_nil_of (by simpa [containsL] using h)
    subst hp
    simpa using containsL_nil_pat u
  | cons c t ih =>
    simp only [containsL, Bool.or_eq_true] at h
    rcases h with h | h
    · simp only [List.cons_append, containsL, Bool.or_eq_true]
      exact Or.inl (startsWithL_append u h)
    · simp only [List.cons_append, containsL, Bool.or_eq_true]
      exact Or.inr (ih h)

lemma strContains_extend {d pat : String} {p : String} {rest : List Char}
    (hc : strContains d pat = true)
    (hp : p.toList = d.toList ++ '/' :: rest) :
    strContains p pat = true := by
  unfold strContains at hc ⊢
  rw [hp]
  exact containsL_append _ hc

@[simp] lemma fs_set_current_vault (st : ServiceState) (v : Vault) :
    (set_current_vault st v).fs = st.fs := rfl

@[simp] lemma fs_add_to_recent_vaults (st : ServiceState) (rv : RecentVault) :
    (add_to_recent_vaults st rv).fs = st.fs := rfl

@[simp] lemma recent_vaults_add_to_recent_vaults (st : ServiceState) (rv : RecentVault) :
    (add_to_recent_vaults st rv).recent_vaults = recent_list_update st.recent_vaults rv := rfl

@[simp] lemma id_calculate_vault_stats (fs : FS) (v : Vault) :
    (calculate_vault_stats fs v).id = v.id := rfl

@[simp] lemma path_calculate_vault_stats (fs : FS) (v : Vault) :
    (calculate_vault_stats fs v).path = v.path := rfl

@[simp] lemma isDir_writeFile (fs : FS) (p : String) (d : FileData) (q : String) :
    isDir (writeFile fs p d) q = isDir fs q := rfl

lemma isDir_createDirAll_of {fs : FS} {q : String} (p : String)
    (h : isDir fs q = true) : isDir (createDirAll fs p) q = true := by
  unfold createDirAll
  split
  · exact h
  · unfold isDir at h ⊢
    simp only [List.contains_cons, h, Bool.or_true]

lemma pathExists_of_isDir {fs : FS} {p : String} (h : isDir fs p = true) :
    pathExists fs p = true := by
  unfold isDir at h
  unfold pathExists
  rw [h]
  rfl

lemma readFile_writeFile_self (fs : FS) (p : String) (d : FileData) :
    readFile (writeFile fs p d) p = some d := by
  simp [readFile, writeFile, List.find?]

lemma pathExists_of_readFile {fs : FS} {p : String} {d : FileData}
    (h : readFile fs p = some d) : pathExists fs p = true := by
  unfold readFile at h
  cases hf : fs.files.find? (fun kv => kv.1 == p) with
  | none => rw [hf] at h; cases h
  | some kv =>
    have hm := List.mem_of_find?_eq_some hf
    have hp := List.find?_some hf
    unfold pathExists
    have ha : fs.files.any (fun kv => kv.1 == p) = true :=
      List.any_eq_true.mpr ⟨kv, hm, hp⟩
    rw [ha]
    simp

lemma requested_vault_path (request : CreateVaultRequest) (vault_id now : String) :
    (requested_vault request vault_id now).path = request.path := by
  unfold requested_vault
  cases request.description <;> rfl

lemma requested_vault_id (request : CreateVaultRequest) (vault_id now : String) :
    (requested_vault request vault_id now).id = vault_id := by
  unfold requested_vault
  cases request.description <;> rfl

lemma requested_vault_note_count (request : CreateVaultRequest) (vault_id now : String) :
    (requested_vault request vault_id now).note_count = 0 := by
  unfold requested_vault
  cases request.description <;> rfl

lemma requested_vault_total_size (request : CreateVaultRequest) (vault_id now : String) :
    (requested_vault request vault_id now).total_size = 0 := by
  unfold requested_vault
  cases request.description <;> rfl

lemma create_vault_ok_iff (st : ServiceState) (request : CreateVaultRequest)
    (vault_id now : String) (v : Vault) (st' : ServiceState) :
    create_vault st request vault_id now = .ok (v, st') ↔
      pathExists st.fs request.path = true ∧ isDir st.fs request.path = true ∧
      (v, st') = create_vault_core st request vault_id now := by
  unfold create_vault
  split
  · next h => simp [h]
  · next h =>
    split
    · next h2 => simp [h2]
    · next h2 =>
      have h' : pathExists st.fs request.path = true := by
        cases hb : pathExists st.fs request.path
        · exact absurd hb h
        · rfl
      have h2' : isDir st.fs request.path = true := by
        cases hb : isDir st.fs request.path
        · exact absurd hb h2
        · rfl
      simp [h', h2', eq_comm]

lemma calculate_vault_stats_drop_file (fs₁ fs₂ : FS) (v : Vault)
    (pre post : List (String × FileEntry)) (p : String) (fe : FileEntry)
    (hd : fs₁.dirs = fs₂.dirs)
    (h1 : fs₁.files = pre ++ (p, fe) :: post)
    (h2 : fs₂.files = pre ++ post)
    (hstep : ∀ acc, statsStep v.config.settings acc { path := p, kind := .fileK fe } = acc) :
    calculate_vault_stats fs₁ v = calculate_vault_stats fs₂ v := by
  by_cases hq : underRoot v.path p = true
  · simp [calculate_vault_stats, walkEntries, hd, h1, h2, List.filter_append,
      List.filter_cons, hq, List.map_append, List.foldl_append, hstep]
  · have hq' : underRoot v.path p = false := by
      cases hb : underRoot v.path p
      · rfl
      · exact absurd hb hq
    simp [calculate_vault_stats, walkEntries, hd, h1, h2, List.filter_append,
      List.filter_cons, hq', List.map_append, List.foldl_append]

lemma recent_list_update_length (l : List RecentVault) (rv : RecentVault) :
    (recent_list_update l rv).length ≤ 10 := by
  unfold recent_list_update
  exact List.length_take_le _ _

lemma recent_list_update_nodup (l : List RecentVault) (rv : RecentVault)
    (h : (l.map RecentVault.id).Nodup) :
    ((recent_list_update l rv).map RecentVault.id).Nodup := by
  unfold recent_list_update
  have hsubtake : List.Sublist
      (((rv :: l.filter (fun v => v.id != rv.id)).take 10).map RecentVault.id)
      ((rv :: l.filter (fun v => v.id != rv.id)).map RecentVault.id) :=
    List.Sublist.map _ (List.take_sublist _ _)
  refine List.Nodup.sublist hsubtake ?_
  simp only [List.map_cons, List.nodup_cons]
  constructor
  · intro hmem
    rcases List.mem_map.mp hmem with ⟨x, hx, hxid⟩
    rcases List.mem_filter.mp hx with ⟨_, hne⟩
    exact absurd hxid (bne_iff_ne.mp hne)
  · exact List.Nodup.sublist (List.Sublist.map _ (List.filter_sublist _)) h

lemma recent_list_update_head (l : List RecentVault) (rv : RecentVault) :
    (recent_list_update l rv).head? = some rv := rfl

lemma recent_list_update_full_fresh (l : List RecentVault) (rv : RecentVault)
    (hlen : l.length = 10) (hfresh : rv.id ∉ l.map RecentVault.id) :
    recent_list_update l rv = rv :: l.dropLast := by
  have hf : l.filter (fun v => v.id != rv.id) = l := by
    refine List.filter_eq_self.mpr ?_
    intro a ha
    refine bne_iff_ne.mpr ?_
    intro hid
    exact hfresh (hid ▸ List.mem_map_of_mem RecentVault.id ha)
  unfold recent_list_update
  rw [hf]
  have htake : (rv :: l).take 10 = rv :: l.take 9 := rfl
  rw [htake, List.dropLast_eq_take, hlen]

lemma get_vaults_info_step_eq (fs : FS) (cid : Option String)
    (acc : List VaultInfo) (rv : RecentVault) :
    get_vaults_info_step fs cid acc rv = acc ++ (recent_entry_info fs cid rv).toList := by
  by_cases h1 : pathExists fs rv.path = false
  · simp [get_vaults_info_step, recent_entry_info, h1]
  · have h1' : pathExists fs rv.path = true := by
      cases hb : pathExists fs rv.path
      · exact absurd hb h1
      · rfl
    by_cases h2 : pathExists fs (config_path_of rv.path) = true
    · cases hr : readFile fs (config_path_of rv.path) with
      | none => simp [get_vaults_info_step, recent_entry_info, h1', h2, hr]
      | some c =>
        cases hd : deserializeVault c <;>
          simp [get_vaults_info_step, recent_entry_info, h1', h2, hr, hd]
    · have h2' : pathExists fs (config_path_of rv.path) = false := by
        cases hb : pathExists fs (config_path_of rv.path)
        · rfl
        · exact absurd hb h2
      simp [get_vaults_info_step, recent_entry_info, h1', h2']

lemma foldl_step_filterMap (fs : FS) (cid : Option String)
    (l : List RecentVault) (acc : List VaultInfo) :
    l.foldl (get_vaults_info_step fs cid) acc
      = acc ++ l.filterMap (recent_entry_info fs cid) := by
  induction l generalizing acc with
  | nil => simp
  | cons a t ih =>
    rw [List.foldl_cons, ih, get_vaults_info_step_eq, List.filterMap_cons]
    cases h : recent_entry_info fs cid a <;> simp [h]

lemma create_vault_core_fst (st : ServiceState) (request : CreateVaultRequest)
    (vault_id now : String) :
    (create_vault_core st request vault_id now).1
      = calculate_vault_stats
          (writeFile (createDirAll st.fs (onix_dir_of request.path))
            (config_path_of request.path)
            (.vaultJson (requested_vault request vault_id now)))
          (requested_vault request vault_id now) := by
  simp [create_vault_core, Vault.onix_dir, Vault.config_path, requested_vault_path]

lemma create_vault_core_snd_fs (st : ServiceState) (request : CreateVaultRequest)
    (vault_id now : String) :
    (create_vault_core st request vault_id now).2.fs
      = writeFile (createDirAll st.fs (onix_dir_of request.path))
          (config_path_of request.path)
          (.vaultJson (requested_vault request vault_id now)) := by
  simp [create_vault_core, Vault.onix_dir, Vault.config_path, requested_vault_path]

/-! ## Concrete states used by the examples and witnesses -/

/-- Vault root for the scanner example of the spec. -/
def c2FS : FS :=
  { dirs := ["/v", "/v/.git"],
    files := [("/v/a.md", { data := .other "A", size := some 10 }),
              ("/v/b.txt", { data := .other "B", size := some 5 }),
              ("/v/.git/c.md", { data := .other "C", size := some 3 })] }

/-- A vault over /v with the default settings. -/
def c2Vault : Vault := Vault.new "vid" "V" "/v" "0"

/-- Vault root holding a note file inside a hidden directory. -/
def c1FS : FS :=
  { dirs := ["/v", "/v/.hidden"],
    files := [("/v/.hidden/note.md", { data := .other "N", size := some 7 })] }

/-- The scanner example root without its excluded .git/c.md file. -/
def c2FSb : FS :=
  { dirs := ["/v", "/v/.git"],
    files := [("/v/a.md", { data := .other "A", size := some 10 }),
              ("/v/b.txt", { data := .other "B", size := some 5 })] }

/-- Vault root holding one extension-less file. -/
def c10FS : FS :=
  { dirs := ["/v"],
    files := [("/v/Makefile", { data := .other "M", size := some 4 })] }

/-- The same root without the extension-less file. -/
def c10FSb : FS := { dirs := ["/v"], files := [] }

/-! ## Claims -/

/-- C2: for a vault root containing exactly a.md of 10 bytes, b.txt of 5
bytes and .git/c.md of 3 bytes, scanning with the default settings
(extensions md and markdown, exclusions .git, .onix, node_modules and
.DS_Store) yields note_count 1 and total_size 10. -/
theorem stats_scanner_default_example :
    c2Vault.config.settings = VaultSettings.default ∧
    (calculate_vault_stats c2FS c2Vault).note_count = 1 ∧
    (calculate_vault_stats c2FS c2Vault).total_size = 10 := by
  decide

/-- C1 counterexample: the directory /v/.hidden is excluded by the filter
(hidden name), the file /v/.hidden/note.md lies strictly below it, yet the
scan of the tree counts that file - the subtree below an excluded entry is
not skipped, refuting the claim that no file below an excluded entry
contributes. -/
theorem stats_scanner_subtree_counterexample :
    should_exclude_path "/v/.hidden" c2Vault.config.settings.exclude_patterns = true ∧
    underRoot c2Vault.path "/v/.hidden" = true ∧
    strStartsWith "/v/.hidden/note.md" ("/v/.hidden" ++ "/") = true ∧
    (calculate_vault_stats c1FS c2Vault).note_count = 1 ∧
    (calculate_vault_stats c1FS c2Vault).total_size = 7 := by
  decide

/-- C1 amended: the scanner skips only the excluded entry itself, not the
subtree below it.  The subtree is nevertheless lost for entries excluded by
a configured pattern, because a pattern occurring in a directory path also
occurs as a substring of every descendant path, so every descendant is
excluded in its own right; a file below a directory excluded only by the
hidden-name rule is still counted (see the counterexample).  Concretely:
first, any path extending a pattern-matched path is itself excluded;
second, a file the filter excludes contributes neither to note_count nor to
total_size. -/
theorem stats_scanner_subtree_amended :
    (∀ (patterns : List String) (pat d p : String) (rest : List Char),
        pat ∈ patterns → strContains d pat = true →
        p.toList = d.toList ++ '/' :: rest →
        should_exclude_path p patterns = true) ∧
    (∀ (fs₁ fs₂ : FS) (v : Vault) (pre post : List (String × FileEntry))
        (p : String) (fe : FileEntry),
        fs₁.dirs = fs₂.dirs → fs₁.files = pre ++ (p, fe) :: post →
        fs₂.files = pre ++ post →
        should_exclude_path p v.config.settings.exclude_patterns = true →
        calculate_vault_stats fs₁ v = calculate_vault_stats fs₂ v) := by
  constructor
  · intro patterns pat d p rest hmem hc hp
    unfold should_exclude_path
    have ha : patterns.any (fun pat => strContains p pat) = true :=
      List.any_eq_true.mpr ⟨pat, hmem, strContains_extend hc hp⟩
    rw [ha]
    simp
  · intro fs₁ fs₂ v pre post p fe hd h1 h2 hexcl
    refine calculate_vault_stats_drop_file fs₁ fs₂ v pre post p fe hd h1 h2 ?_
    intro acc
    simp [statsStep, hexcl]

/-- C1 amended witness: the default pattern .git occurs in /v/.git, hence
also in the path of the nested file /v/.git/c.md, which is therefore
excluded; and removing an excluded file from a tree leaves the computed
statistics unchanged. -/
theorem stats_scanner_subtree_amended_witness :
    should_exclude_path "/v/.git/c.md" c2Vault.config.settings.exclude_patterns = true ∧
    calculate_vault_stats c2FS c2Vault = calculate_vault_stats c2FSb c2Vault :=
  ⟨stats_scanner_subtree_amended.1 c2Vault.config.settings.exclude_patterns ".git"
      "/v/.git" "/v/.git/c.md" "c.md".toList (by decide) (by decide) (by decide),
    stats_scanner_subtree_amended.2 c2FS c2FSb c2Vault
      [("/v/a.md", { data := .other "A", size := some 10 }),
       ("/v/b.txt", { data := .other "B", size := some 5 })] []
      "/v/.git/c.md" { data := .other "C", size := some 3 }
      rfl (by decide) (by decide) (by decide)⟩

/-- C10: a file whose name has no extension is never counted and contributes
nothing to total_size, whatever the recognized-extensions set: removing such
a file from the tree leaves the computed statistics unchanged. -/
theorem no_extension_never_counted (fs₁ fs₂ : FS) (v : Vault)
    (pre post : List (String × FileEntry)) (p : String) (fe : FileEntry)
    (hd : fs₁.dirs = fs₂.dirs)
    (h1 : fs₁.files = pre ++ (p, fe) :: post)
    (h2 : fs₂.files = pre ++ post)
    (hext : pathExtension p = none) :
    calculate_vault_stats fs₁ v = calculate_vault_stats fs₂ v := by
  refine calculate_vault_stats_drop_file fs₁ fs₂ v pre post p fe hd h1 h2 ?_
  intro acc
  unfold statsStep
  split
  · rfl
  · simp [hext]

/-- C10 witness: dropping the extension-less file /v/Makefile does not
change the statistics of the scan. -/
theorem no_extension_never_counted_witness :
    calculate_vault_stats c10FS c2Vault = calculate_vault_stats c10FSb c2Vault :=
  no_extension_never_counted c10FS c10FSb c2Vault [] []
    "/v/Makefile" { data := .other "M", size := some 4 } rfl rfl rfl (by decide)

/-- C8: close_vault succeeds in every state, leaves the current-vault slot
empty so that get_current_vault returns none afterwards, and a second
close_vault produces the same state again. -/
theorem close_vault_idempotent (st : ServiceState) :
    close_vault st = .ok ((), { st with current_vault := none }) ∧
    get_current_vault { st with current_vault := none } = .ok none ∧
    close_vault { st with current_vault := none }
      = .ok ((), { st with current_vault := none }) :=
  ⟨rfl, rfl, rfl⟩

/-- C3: adding to the recent-vaults list keeps it within 10 entries and free
of duplicate identifiers, puts the added entry at index 0, drops the oldest
(last) entry when the list already held 10 distinct identifiers and the new
identifier is fresh, and these bounds are maintained across every sequence
of additions. -/
theorem recent_vaults_bounded_dedup (st : ServiceState) (rv : RecentVault)
    (hnd : (st.recent_vaults.map RecentVault.id).Nodup) :
    ((add_to_recent_vaults st rv).recent_vaults).length ≤ 10 ∧
    (((add_to_recent_vaults st rv).recent_vaults).map RecentVault.id).Nodup ∧
    ((add_to_recent_vaults st rv).recent_vaults).head? = some rv ∧
    (st.recent_vaults.length = 10 → rv.id ∉ st.recent_vaults.map RecentVault.id →
      (add_to_recent_vaults st rv).recent_vaults = rv :: st.recent_vaults.dropLast) ∧
    (∀ (adds : List RecentVault) (st₀ : ServiceState),
      (st₀.recent_vaults.map RecentVault.id).Nodup →
      st₀.recent_vaults.length ≤ 10 →
      ((adds.foldl add_to_recent_vaults st₀).recent_vaults).length ≤ 10 ∧
      (((adds.foldl add_to_recent_vaults st₀).recent_vaults).map RecentVault.id).Nodup) := by
  refine ⟨?_, ?_, ?_, ?_, ?_⟩
  · exact recent_list_update_length _ _
  · exact recent_list_update_nodup _ _ hnd
  · exact recent_list_update_head _ _
  · intro hlen hfresh
    exact recent_list_update_full_fresh _ _ hlen hfresh
  · intro adds
    induction adds with
    | nil => intro st₀ h1 h2; exact ⟨h2, h1⟩
    | cons a t ih =>
      intro st₀ h1 _
      rw [List.foldl_cons]
      exact ih (add_to_recent_vaults st₀ a)
        (recent_list_update_nodup _ _ h1) (recent_list_update_length _ _)

/-- A one-entry recent list used by the C3 witness. -/
def c3St : ServiceState :=
  { fs := { dirs := [], files := [] }
    current_vault := none
    recent_vaults := [{ id := "a", name := "A", path := "/a", last_opened := "1" }]
    recent_file := [] }

/-- A fresh entry added by the C3 witness. -/
def c3Rv : RecentVault := { id := "b", name := "B", path := "/b", last_opened := "2" }

/-- C3 witness: the bounds hold for a concrete addition to a concrete list
with distinct identifiers. -/
theorem recent_vaults_bounded_dedup_witness :
    ((add_to_recent_vaults c3St c3Rv).recent_vaults).length ≤ 10 ∧
    (((add_to_recent_vaults c3St c3Rv).recent_vaults).map RecentVault.id).Nodup ∧
    ((add_to_recent_vaults c3St c3Rv).recent_vaults).head? = some c3Rv :=
  (fun h => ⟨h.1, h.2.1, h.2.2.1⟩) (recent_vaults_bounded_dedup c3St c3Rv (by decide))

/-- C6 counterexample: a directory (not a file) sitting at /v/.onix/vault.json
makes is_vault report true although no config file exists there, refuting
the claim that is_vault is true iff the file exists; the code tests bare
path existence. -/
theorem is_vault_presence_counterexample :
    is_vault { dirs := ["/v", "/v/.onix", "/v/.onix/vault.json"], files := [] } "/v"
      = .ok true ∧
    fileExists { dirs := ["/v", "/v/.onix", "/v/.onix/vault.json"], files := [] }
      (config_path_of "/v") = false :=
  ⟨rfl, by decide⟩

/-- C6 amended: is_vault returns false, not an error, for a missing or
non-directory path; otherwise it returns true iff some filesystem entity
(file or directory) exists at the fixed config path under it; and its result
never depends on the contents of any file - two filesystems with the same
directories and the same file paths are indistinguishable to it. -/
theorem is_vault_presence_amended (fs : FS) (p : String) :
    ((pathExists fs p = false ∨ isDir fs p = false) → is_vault fs p = .ok false) ∧
    (pathExists fs p = true → isDir fs p = true →
      is_vault fs p = .ok (pathExists fs (config_path_of p))) ∧
    (∀ fs' : FS, fs.dirs = fs'.dirs →
      fs.files.map Prod.fst = fs'.files.map Prod.fst →
      is_vault fs p = is_vault fs' p) := by
  refine ⟨?_, ?_, ?_⟩
  · intro h
    unfold is_vault
    rcases h with h | h <;> simp [h]
  · intro h1 h2
    unfold is_vault
    simp [h1, h2]
  · intro fs' hd hk
    have key : ∀ (m : List (String × FileEntry)) (x : String),
        m.any (fun kv => kv.1 == x) = (m.map Prod.fst).any (fun k => k == x) := by
      intro m x
      induction m with
      | nil => rfl
      | cons a t ih => simp [List.any_cons, ih]
    have hany : ∀ x, fs.files.any (fun kv => kv.1 == x)
        = fs'.files.any (fun kv => kv.1 == x) := by
      intro x
      rw [key, key, hk]
    unfold is_vault pathExists isDir
    rw [hd, hany, hany]

/-- The scanner example root with the same file paths but different
contents and sizes. -/
def c2FSother : FS :=
  { dirs := c2FS.dirs,
    files := [("/v/a.md", { data := .other "x", size := none }),
              ("/v/b.txt", { data := .other "y", size := none }),
              ("/v/.git/c.md", { data := .other "z", size := none })] }

/-- C6 amended witness: the amended description evaluated on concrete
states - a missing path yields false, a vaulted directory yields the
presence bit, and contents do not matter. -/
theorem is_vault_presence_amended_witness :
    is_vault { dirs := [], files := [] } "/v" = .ok false ∧
    is_vault c2FS "/v" = .ok (pathExists c2FS (config_path_of "/v")) ∧
    is_vault c2FS "/v" = is_vault c2FSother "/v" :=
  ⟨(is_vault_presence_amended { dirs := [], files := [] } "/v").1 (Or.inl (by decide)),
    (is_vault_presence_amended c2FS "/v").2.1 (by decide) (by decide),
    (is_vault_presence_amended c2FS "/v").2.2 c2FSother rfl (by decide)⟩

/-- C5: open_vault fails with the kind the spec calls InvalidConfig (the
InvalidMarkdown constructor in this codebase) when the target directory
exists but the config file contents do not parse as a Vault, and with
FileNotFound (the kind the spec calls NotFound) when the target path does
not exist. -/
theorem open_vault_error_kinds (st : ServiceState) (P vault_id now : String) :
    (pathExists st.fs P = false →
      open_vault st P vault_id now = .error (.FileNotFound P)) ∧
    (∀ d : FileData, pathExists st.fs P = true → isDir st.fs P = true →
      readFile st.fs (config_path_of P) = some d → deserializeVault d = none →
      failsWithInvalidConfig (open_vault st P vault_id now) = true) := by
  constructor
  · intro h
    unfold open_vault
    simp [h]
  · intro d hE hD hr hparse
    have hcfg : pathExists st.fs (config_path_of P) = true := pathExists_of_readFile hr
    unfold open_vault
    simp [hE, hD, hcfg, hr, hparse, failsWithInvalidConfig, AppError.isInvalidConfig]

/-- A service state over an empty filesystem. -/
def c5StEmpty : ServiceState :=
  { fs := { dirs := [], files := [] }
    current_vault := none
    recent_vaults := []
    recent_file := [] }

/-- A vault directory whose config file holds unparseable text. -/
def c5St : ServiceState :=
  { fs := { dirs := ["/v", "/v/.onix"],
            files := [(config_path_of "/v", { data := .other "garbage", size := some 9 })] }
    current_vault := none
    recent_vaults := []
    recent_file := [] }

/-- C5 witness: opening a missing path yields FileNotFound, and opening a
directory whose config does not parse fails with the InvalidConfig kind. -/
theorem open_vault_error_kinds_witness :
    open_vault c5StEmpty "/v" "i" "0" = .error (.FileNotFound "/v") ∧
    failsWithInvalidConfig (open_vault c5St "/v" "i" "0") = true :=
  ⟨(open_vault_error_kinds c5StEmpty "/v" "i" "0").1 (by decide),
    (open_vault_error_kinds c5St "/v" "i" "0").2 (.other "garbage")
      (by decide) (by decide) (by decide) (by decide)⟩

/-- C7: get_vaults_info always succeeds and returns exactly the projection
of the recent entries that pass every check - directory exists, config file
exists and is readable, contents parse - while an entry failing any check is
silently omitted (its per-entry view is none). -/
theorem get_vaults_info_best_effort (st : ServiceState) :
    get_vaults_info st
      = .ok (st.recent_vaults.filterMap
          (recent_entry_info st.fs (st.current_vault.map Vault.id))) ∧
    (∀ rv : RecentVault,
      (pathExists st.fs rv.path = false ∨
        readFile st.fs (config_path_of rv.path) = none ∨
        (∀ c, readFile st.fs (config_path_of rv.path) = some c →
          deserializeVault c = none)) →
      recent_entry_info st.fs (st.current_vault.map Vault.id) rv = none) := by
  constructor
  · simp only [get_vaults_info]
    rw [foldl_step_filterMap]
    simp
  · intro rv h
    rcases h with h | h | h
    · simp [recent_entry_info, h]
    · simp [recent_entry_info, h]
    · cases hr : readFile st.fs (config_path_of rv.path) with
      | none => simp [recent_entry_info, hr]
      | some c => simp [recent_entry_info, hr, h c hr]

/-- A recent list with one stale entry whose directory is gone. -/
def c7St : ServiceState :=
  { fs := { dirs := [], files := [] }
    current_vault := none
    recent_vaults := [{ id := "a", name := "A", path := "/gone", last_opened := "1" }]
    recent_file := [] }

/-- The stale entry of the C7 witness state. -/
def c7Rv : RecentVault := { id := "a", name := "A", path := "/gone", last_opened := "1" }

/-- C7 witness: on a state whose only recent entry points at a deleted
directory, listing succeeds with the empty result and the per-entry view of
the stale entry is none. -/
theorem get_vaults_info_best_effort_witness :
    get_vaults_info c7St = .ok [] ∧
    recent_entry_info c7St.fs (c7St.current_vault.map Vault.id) c7Rv = none :=
  ⟨(get_vaults_info_best_effort c7St).1.trans rfl,
    (get_vaults_info_best_effort c7St).2 c7Rv (Or.inl (by decide))⟩

lemma open_vault_config_ok (st : ServiceState) (P fresh_id now : String) (v0 : Vault)
    (hE : pathExists st.fs P = true) (hD : isDir st.fs P = true)
    (hr : readFile st.fs (config_path_of P) = some (.vaultJson v0)) :
    open_vault st P fresh_id now
      = .ok (open_vault_finish st { v0 with last_opened := now }) := by
  have hcfg : pathExists st.fs (config_path_of P) = true := pathExists_of_readFile hr
  unfold open_vault
  simp [hE, hD, hcfg, hr, deserializeVault]

/-- C9: on every successful create_vault, the config persisted on disk is
the pre-scan vault, carrying note_count 0 and total_size 0, because it is
written before statistics are computed and never re-saved - while the Vault
value returned to the caller is that same vault with freshly computed
statistics. -/
theorem create_persists_zero_stats (st : ServiceState) (request : CreateVaultRequest)
    (vault_id now : String) (v : Vault) (st' : ServiceState)
    (hcreate : create_vault st request vault_id now = .ok (v, st')) :
    readFile st'.fs (config_path_of request.path)
      = some (.vaultJson (requested_vault request vault_id now)) ∧
    (requested_vault request vault_id now).note_count = 0 ∧
    (requested_vault request vault_id now).total_size = 0 ∧
    v = calculate_vault_stats st'.fs (requested_vault request vault_id now) := by
  rcases (create_vault_ok_iff st request vault_id now v st').mp hcreate with ⟨hE, hD, hcore⟩
  have hv : v = (create_vault_core st request vault_id now).1 := by
    rw [← hcore]
  have hst : st' = (create_vault_core st request vault_id now).2 := by
    rw [← hcore]
  have hfs : st'.fs = writeFile (createDirAll st.fs (onix_dir_of request.path))
      (config_path_of request.path)
      (.vaultJson (requested_vault request vault_id now)) := by
    rw [hst, create_vault_core_snd_fs]
  refine ⟨?_, requested_vault_note_count request vault_id now,
    requested_vault_total_size request vault_id now, ?_⟩
  · rw [hfs]
    exact readFile_writeFile_self _ _ _
  · rw [hv, create_vault_core_fst, hfs]

/-- A state holding just the empty directory /v, used to exercise create
followed by open. -/
def c4St : ServiceState :=
  { fs := { dirs := ["/v"], files := [] }
    current_vault := none
    recent_vaults := []
    recent_file := [] }

/-- The creation request of the C4 and C9 witnesses. -/
def c4Req : CreateVaultRequest := { path := "/v", name := "N", description := none }

/-- The result of creating a vault at /v in the witness state. -/
def c4Step1 : Except AppError (Vault × ServiceState) := create_vault c4St c4Req "id-1" "t1"

/-- The vault returned by the witness creation. -/
def c4Vault1 : Vault :=
  match c4Step1 with
  | .ok (v, _) => v
  | .error _ => Vault.new "" "" "" ""

/-- The state after the witness creation. -/
def c4State1 : ServiceState :=
  match c4Step1 with
  | .ok (_, s) => s
  | .error _ => c4St

/-- C9 witness: the concrete creation at /v persists a zero-statistics
config while returning the rescanned vault. -/
theorem create_persists_zero_stats_witness :
    readFile c4State1.fs (config_path_of c4Req.path)
      = some (.vaultJson (requested_vault c4Req "id-1" "t1")) ∧
    (requested_vault c4Req "id-1" "t1").note_count = 0 ∧
    (requested_vault c4Req "id-1" "t1").total_size = 0 ∧
    c4Vault1 = calculate_vault_stats c4State1.fs (requested_vault c4Req "id-1" "t1") :=
  create_persists_zero_stats c4St c4Req "id-1" "t1" c4Vault1 c4State1 rfl

/-- C4: when create_vault at a path succeeds with a vault carrying some
identifier, every subsequent successful open_vault of the same path returns
a vault with that same identifier - the identifier is read back from the
stored config, not regenerated. -/
theorem create_then_open_same_id (st : ServiceState) (request : CreateVaultRequest)
    (vault_id now1 fresh_id now2 : String) (v v2 : Vault) (st' st2 : ServiceState)
    (hcreate : create_vault st request vault_id now1 = .ok (v, st'))
    (hopen : open_vault st' request.path fresh_id now2 = .ok (v2, st2)) :
    v2.id = v.id := by
  rcases (create_vault_ok_iff st request vault_id now1 v st').mp hcreate with ⟨hE, hD, hcore⟩
  have hv : v = (create_vault_core st request vault_id now1).1 := by
    rw [← hcore]
  have hst : st' = (create_vault_core st request vault_id now1).2 := by
    rw [← hcore]
  have hfs : st'.fs = writeFile (createDirAll st.fs (onix_dir_of request.path))
      (config_path_of request.path)
      (.vaultJson (requested_vault request vault_id now1)) := by
    rw [hst, create_vault_core_snd_fs]
  have hD' : isDir st'.fs request.path = true := by
    rw [hfs]
    exact isDir_createDirAll_of _ hD
  have hE' : pathExists st'.fs request.path = true := pathExists_of_isDir hD'
  have hr : readFile st'.fs (config_path_of request.path)
      = some (.vaultJson (requested_vault request vault_id now1)) := by
    rw [hfs]
    exact readFile_writeFile_self _ _ _
  have hvid : v.id = vault_id := by
    rw [hv, create_vault_core_fst]
    simp [requested_vault_id]
  rw [open_vault_config_ok st' request.path fresh_id now2
    (requested_vault request vault_id now1) hE' hD' hr] at hopen
  have hpair := Except.ok.inj hopen
  have hfst : (open_vault_finish st'
      { requested_vault request vault_id now1 with last_opened := now2 }).1 = v2 := by
    rw [hpair]
  rw [hvid, ← hfst]
  simp [open_vault_finish, requested_vault_id]

/-- The result of re-opening /v after the witness creation. -/
def c4Step2 : Except AppError (Vault × ServiceState) :=
  open_vault c4State1 c4Req.path "id-2" "t2"

/-- The vault returned by the witness re-open. -/
def c4Vault2 : Vault :=
  match c4Step2 with
  | .ok (v, _) => v
  | .error _ => Vault.new "" "" "" ""

/-- The state after the witness re-open. -/
def c4State2 : ServiceState :=
  match c4Step2 with
  | .ok (_, s) => s
  | .error _ => c4State1

/-- C4 witness: creating at /v and then opening /v again returns a vault
with the identifier assigned at creation. -/
theorem create_then_open_same_id_witness : c4Vault2.id = c4Vault1.id :=
  create_then_open_same_id c4St c4Req "id-1" "t1" "id-2" "t2"
    c4Vault1 c4Vault2 c4State1 c4State2 rfl rfl
